import Mathlib

/-!
Verification of the roster/topology coordinator implemented in
`src/hooks/useWebRTC.ts`.

The coordinator state kept by the hook (`networkTopology`, `participants`,
`connectionsRef`) is embedded as an explicit `CoordState`; every outward
interaction with the PeerJS transport (dialing, sending a signaling message,
closing a link, destroying the peer handle) is recorded as an `Act` in an
effect log, and each handler of the hook is translated as a function
`CoordState -> CoordState × List Act`.

Modelling conventions:
* The embedding models the post-initialization regime (after the peer `open`
  event): `peerRef.current` and `localStream` are set, so the
  `if (!peerRef.current || !localStream) return` early-outs never fire;
  `peerRef.current.id` is the field `selfId`.
* `connectionsRef.current` is a JavaScript object keyed by peer id; it is
  embedded as an insertion-ordered association list. Property assignment
  keeps the position of an existing key and appends a new one
  (`upsertConn`); `delete` removes the key (`deleteConn`);
  `Object.entries` iterates in insertion order (list order).
* `MediaStream` handles are opaque and are modelled as `Nat` tokens.
* React's functional `setParticipants(prev => ...)` updates are applied
  sequentially, in call order, which is exactly how React queues them.
* `lastSeenRef` only stores timestamps that are never read back for any
  decision, so it is not part of the state.
* JavaScript `str.includes(sub)` is substring containment (`includes`);
  the truthiness test on a string field is the test against `""`.
* Message envelopes carry their `timestamp: Date.now()` field; handlers that
  send take the current time `now : Nat` as a parameter.
-/

/-- Network topology selector (`"mesh" | "star"`, line 20). -/
inductive Topology where
  | mesh
  | star
deriving DecidableEq, Repr

/-- A roster entry (`interface Participant`, lines 4-8); the `stream` field
is an opaque `MediaStream` handle. -/
structure Participant where
  id : String
  stream : Nat
  isCreator : Bool
deriving DecidableEq, Repr

/-- A PeerJS `MediaConnection`, identified by the remote peer it dials. -/
structure MediaConn where
  peer : String
deriving DecidableEq, Repr

/-- A PeerJS `DataConnection`: remote peer id and its `open` flag. -/
structure DataConn where
  peer : String
  isOpen : Bool
deriving DecidableEq, Repr

/-- One value of `connectionsRef.current` (lines 25-30): the optional media
and data connections registered for one peer id. -/
structure ConnEntry where
  mediaConnection : Option MediaConn := none
  dataConnection : Option DataConn := none
deriving DecidableEq, Repr

/-- The four signaling message kinds of the wire format (lines 110-114,
264-268, 350-354, 363-367, 401-405, 573-576, 597-600). -/
inductive Msg where
  | peerList (peers : List String) (timestamp : Nat)
  | newPeer (peerId : String) (timestamp : Nat)
  | requestPeerList (timestamp : Nat)
  | peerDisconnect (peerId : String) (timestamp : Nat)
deriving DecidableEq, Repr

/-- Observable transport effects of the coordinator: `send` over a data
connection, `peer.connect` (dialData), `peer.call` (dialMedia), closing
either channel, `peer.destroy()`, and `clearInterval` of the creator's
broadcast timer (stopTimer). -/
inductive Act where
  | send (target : String) (msg : Msg)
  | dialData (peer : String)
  | dialMedia (peer : String)
  | closeMedia (peer : String)
  | closeData (peer : String)
  | destroyPeer
  | stopTimer
deriving DecidableEq, Repr

/-- JavaScript `s.includes(sub)`: substring containment. -/
def includes (s sub : String) : Bool :=
  decide (sub.data <:+: s.data)

/-- The `connectionsRef.current` object: insertion-ordered association list. -/
abbrev Registry := List (String × ConnEntry)

/-- JavaScript property read `conns[k]`. -/
def lookupConn (conns : Registry) (k : String) : Option ConnEntry :=
  (conns.find? (fun kv => kv.1 == k)).map (·.2)

/-- JavaScript property write `conns[k] = f(conns[k])`: an existing key keeps
its position, a new key is appended. -/
def upsertConn (conns : Registry) (k : String) (f : Option ConnEntry → ConnEntry) :
    Registry :=
  if (conns.find? (fun kv => kv.1 == k)).isSome then
    conns.map (fun kv => if kv.1 == k then (k, f (some kv.2)) else kv)
  else conns ++ [(k, f none)]

/-- JavaScript `delete conns[k]`. -/
def deleteConn (conns : Registry) (k : String) : Registry :=
  conns.filter (fun kv => kv.1 != k)

/-- The coordinator state of one `useWebRTC` instance: the hook props
(`roomId`, `isCreator`), the local peer id (line 65), the selected topology,
the roster (`participants`) and the connection registry. -/
structure CoordState where
  roomId : String
  isCreator : Bool
  selfId : String
  networkTopology : Topology
  participants : List Participant
  connections : Registry
deriving DecidableEq, Repr

/-- `connectionsRef.current[pid]?.mediaConnection` is present. -/
def mediaRegistered (s : CoordState) (pid : String) : Bool :=
  ((lookupConn s.connections pid).bind (·.mediaConnection)).isSome

/-- `connectionsRef.current[pid]?.dataConnection` is present. -/
def dataRegistered (s : CoordState) (pid : String) : Bool :=
  ((lookupConn s.connections pid).bind (·.dataConnection)).isSome

/-- `entry.dataConnection?.open` of one registry entry. -/
def dataOpenEntry (e : ConnEntry) : Bool :=
  match e.dataConnection with
  | some d => d.isOpen
  | none => false

/-- `connectionsRef.current[pid]?.dataConnection?.open`. -/
def dataOpenAt (s : CoordState) (pid : String) : Bool :=
  match (lookupConn s.connections pid).bind (·.dataConnection) with
  | some d => d.isOpen
  | none => false

/-- Peer id generation (line 65), creator arm of the conditional:
`` `${roomId}-creator` ``. -/
def creatorPeerId (roomId : String) : String := roomId ++ "-creator"

/-- Peer id generation (line 65), joiner arm: `` `${roomId}-${Date.now()}` ``,
with the decimal rendering of `Date.now()` abstracted as `suf`. -/
def joinerPeerId (roomId suf : String) : String := roomId ++ "-" ++ suf

/-- `broadcastPeerList` (lines 255-271): the creator sends
`{type:"peer-list", peers:[self, ...roster ids]}` over every registered data
connection that is open; a non-creator does nothing. -/
def broadcastPeerList (now : Nat) (s : CoordState) : List Act :=
  if !s.isCreator then []
  else
    let allPeers := s.selfId :: s.participants.map (·.id)
    (s.connections.filter (fun kv => dataOpenEntry kv.2)).map
      (fun kv => Act.send kv.1 (Msg.peerList allPeers now))

/-- `establishPeerConnection` (lines 274-330): skip when dialing self or a
media connection is already registered; otherwise `peer.connect` when no data
connection is registered (the resulting data connection is registered only
later, by its `open` event, line 338) and `peer.call` when no media
connection is registered, registering the call immediately (lines 296-299). -/
def establishPeerConnection (s : CoordState) (pid : String) : CoordState × List Act :=
  if pid = s.selfId then (s, [])
  else if mediaRegistered s pid then (s, [])
  else
    let dialDataActs : List Act :=
      if dataRegistered s pid then [] else [Act.dialData pid]
    if mediaRegistered s pid then (s, dialDataActs)
    else
      ({ s with connections :=
          (upsertConn s.connections pid (fun e =>
            let e0 := e.getD {}
            { e0 with mediaConnection := some ⟨pid⟩ })) },
       dialDataActs ++ [Act.dialMedia pid])

/-- Roster update run by the incoming-call `stream` handler (lines 178-204):
returns the new roster and whether the mesh side-connection
`establishPeerConnection(call.peer)` is triggered (lines 186-194). -/
def inboundCallRosterUpdate (topology : Topology) (isCreatorLocal : Bool)
    (callPeer : String) (remoteStream : Nat) (prev : List Participant) :
    List Participant × Bool :=
  if prev.any (fun p => p.id == callPeer) then (prev, false)
  else
    let isCreatorPeer := includes callPeer "-creator"
    (prev ++ [⟨callPeer, remoteStream, isCreatorPeer⟩],
     topology = Topology.mesh && !isCreatorLocal && !isCreatorPeer)

/-- Roster update run by the outbound call `stream` handler inside
`establishPeerConnection` (lines 302-320). -/
def establishStreamRosterUpdate (pid : String) (remoteStream : Nat)
    (prev : List Participant) : List Participant :=
  if prev.any (fun p => p.id == pid) then prev
  else prev ++ [⟨pid, remoteStream, includes pid "-creator"⟩]

/-- Roster update run by the creator-call `stream` handler inside
`connectToCreator` (lines 446-464): the entry is hard-coded with
`id: creatorId, isCreator: true`. -/
def connectToCreatorRosterUpdate (roomId : String) (remoteStream : Nat)
    (prev : List Participant) : List Participant :=
  let creatorId := roomId ++ "-creator"
  if prev.any (fun p => p.id == creatorId) then prev
  else prev ++ [⟨creatorId, remoteStream, true⟩]

/-- The `open` handler installed by `handleDataConnection` (lines 334-372):
register the data connection, then — creator only — send the newcomer the
current peer list (`[peerRef.current?.id, ...participants].filter(Boolean)`)
and announce the newcomer to every other registered peer whose data
connection is open. -/
def handleDataConnectionOpen (now : Nat) (s : CoordState) (connPeer : String) :
    CoordState × List Act :=
  let s1 : CoordState :=
    { s with connections :=
        (upsertConn s.connections connPeer (fun e =>
          let e0 := e.getD {}
          { e0 with dataConnection := some ⟨connPeer, true⟩ })) }
  if s1.isCreator then
    let currentPeers := (s1.selfId :: s1.participants.map (·.id)).filter (fun x => x != "")
    let announce := (s1.connections.filter
        (fun kv => kv.1 != connPeer && dataOpenEntry kv.2)).map
        (fun kv => Act.send kv.1 (Msg.newPeer connPeer now))
    (s1, Act.send connPeer (Msg.peerList currentPeers now) :: announce)
  else (s1, [])

/-- `handlePeerDisconnection` (lines 515-524): filter the roster by id and
delete the registry entry when present. -/
def handlePeerDisconnection (s : CoordState) (pid : String) : CoordState :=
  { s with
      participants := s.participants.filter (fun p => p.id != pid),
      connections :=
        if (lookupConn s.connections pid).isSome then deleteConn s.connections pid
        else s.connections }

/-- One iteration of the `peerIds.forEach` loop of `handlePeerList`
(lines 481-493): skip self and any id containing `"-creator"`; dial via
`establishPeerConnection` when topology is mesh or the local role is
creator. -/
def handlePeerListStep (acc : CoordState × List Act) (pid : String) :
    CoordState × List Act :=
  if pid = acc.1.selfId ∨ includes pid "-creator" = true then acc
  else if acc.1.networkTopology = Topology.mesh ∨ acc.1.isCreator = true then
    let r := establishPeerConnection acc.1 pid
    (r.1, acc.2 ++ r.2)
  else acc

/-- Close actions for one registry entry
(`…?.mediaConnection?.close(); …?.dataConnection?.close()`). -/
def closeActsOf (e : Option ConnEntry) (pid : String) : List Act :=
  (match e.bind (·.mediaConnection) with
   | some _ => [Act.closeMedia pid]
   | none => []) ++
  (match e.bind (·.dataConnection) with
   | some _ => [Act.closeData pid]
   | none => [])

/-- One iteration of the star-reconciliation loop of `handlePeerList`
(lines 503-510): close both channels, delete the registry entry, and filter
the roster with `p.id !== peerId`. -/
def removeRegisteredPeerStep (acc : CoordState × List Act) (pid : String) :
    CoordState × List Act :=
  let e := lookupConn acc.1.connections pid
  ({ acc.1 with
      connections := deleteConn acc.1.connections pid,
      participants := acc.1.participants.filter (fun p => p.id != pid) },
   acc.2 ++ closeActsOf e pid)

/-- `handlePeerList` (lines 477-512): dial every listed id through
`handlePeerListStep`, then — star topology, non-creator only — close and
remove every registered peer whose id does not contain `"-creator"`. -/
def handlePeerList (s : CoordState) (peerIds : List String) : CoordState × List Act :=
  let r1 := peerIds.foldl handlePeerListStep (s, [])
  if r1.1.networkTopology = Topology.star ∧ r1.1.isCreator = false then
    let nonCreatorPeers :=
      (r1.1.connections.map (·.1)).filter (fun id => !(includes id "-creator"))
    nonCreatorPeers.foldl removeRegisteredPeerStep r1
  else r1

/-- The `data` handler installed by `handleDataConnection` (lines 374-412):
dispatch on the message type; a `new-peer` id and a `peer-disconnect` id are
tested for truthiness (non-empty string) before dispatch. -/
def handleDataConnectionData (now : Nat) (s : CoordState) (fromPeer : String)
    (msg : Msg) : CoordState × List Act :=
  match msg with
  | .peerList peers _ => handlePeerList s peers
  | .newPeer pid _ =>
      if pid ≠ "" ∧ pid ≠ s.selfId then
        if s.networkTopology = Topology.mesh ∨ s.isCreator = true then
          establishPeerConnection s pid
        else (s, [])
      else (s, [])
  | .requestPeerList _ =>
      if s.isCreator then
        let currentPeers := (s.selfId :: s.participants.map (·.id)).filter (fun x => x != "")
        (s, [Act.send fromPeer (Msg.peerList currentPeers now)])
      else (s, [])
  | .peerDisconnect pid _ =>
      if pid ≠ "" then (handlePeerDisconnection s pid, []) else (s, [])

/-- `connectToCreator` (lines 424-474): `peer.connect(creatorId)` and
`peer.call(creatorId, stream)`, then overwrite the whole registry entry with
the two fresh connections (lines 440-443); the data connection is not yet
open at this point. -/
def connectToCreator (s : CoordState) : CoordState × List Act :=
  let creatorId := s.roomId ++ "-creator"
  ({ s with connections :=
      (upsertConn s.connections creatorId (fun _ =>
        { mediaConnection := some ⟨creatorId⟩,
          dataConnection := some ⟨creatorId, false⟩ })) },
   [Act.dialData creatorId, Act.dialMedia creatorId])

/-- One iteration of the `Object.entries` loop of `setTopology` on a switch
to star (lines 553-564): for a snapshot entry whose key does not contain
`"-creator"`, close both channels, delete the registry entry, and update the
roster with `prev.filter((p) => p.id === peerId)` (line 561, `===`). -/
def setTopologyStarStep (acc : CoordState × List Act) (kv : String × ConnEntry) :
    CoordState × List Act :=
  if !(includes kv.1 "-creator") then
    ({ acc.1 with
        connections := deleteConn acc.1.connections kv.1,
        participants := acc.1.participants.filter (fun p => p.id == kv.1) },
     acc.2 ++ closeActsOf (some kv.2) kv.1)
  else acc

/-- `setTopology` (lines 547-579): store the new topology; on star (non-creator)
run the disconnect loop over a snapshot of the registry entries; on mesh
(non-creator) send `request-peer-list` to the creator when that data
connection is open. -/
def setTopology (now : Nat) (s0 : CoordState) (topology : Topology) :
    CoordState × List Act :=
  let s : CoordState := { s0 with networkTopology := topology }
  if topology = Topology.star ∧ s.isCreator = false then
    s.connections.foldl setTopologyStarStep (s, [])
  else if topology = Topology.mesh ∧ s.isCreator = false then
    if dataOpenAt s (s.roomId ++ "-creator") then
      (s, [Act.send (s.roomId ++ "-creator") (Msg.requestPeerList now)])
    else (s, [])
  else (s, [])

/-- `reconnectAll` (lines 582-603): the creator re-broadcasts the peer list;
a non-creator re-dials the creator when the creator data connection is not
open, and otherwise sends `request-peer-list` on it. -/
def reconnectAll (now : Nat) (s : CoordState) : CoordState × List Act :=
  if s.isCreator then (s, broadcastPeerList now s)
  else
    let creatorId := s.roomId ++ "-creator"
    if !(dataOpenAt s creatorId) then connectToCreator s
    else (s, [Act.send creatorId (Msg.requestPeerList now)])

/-- The effect cleanup run on teardown (lines 223-251): notify every open
data connection with `peer-disconnect`, close every registered channel, then
`peer.destroy()`. No `clearInterval` occurs here: the closure
`() => clearInterval(broadcastInterval)` of line 154 is the return value of
the peer `open` event handler, which the event emitter discards, so no
`Act.stopTimer` is ever emitted. -/
def cleanupActions (now : Nat) (s : CoordState) : List Act :=
  let notifies := (s.connections.filter (fun kv => dataOpenEntry kv.2)).map
      (fun kv => Act.send kv.1 (Msg.peerDisconnect s.selfId now))
  let closes := s.connections.foldl
      (fun acc kv => acc ++ closeActsOf (some kv.2) kv.1) []
  notifies ++ closes ++ [Act.destroyPeer]

/-- The roster invariant of C10: the `isCreator` flag of every entry agrees
with the `"-creator"` marker test on its id. -/
def RosterOk (l : List Participant) : Prop :=
  ∀ p ∈ l, p.isCreator = includes p.id "-creator"

def exState : CoordState :=
  { roomId := "w", isCreator := true, selfId := "w-creator",
    networkTopology := Topology.mesh,
    participants := [⟨"w-9", 3, false⟩],
    connections := [("w-9",
      { mediaConnection := some ⟨"w-9"⟩, dataConnection := some ⟨"w-9", true⟩ })] }

/-- The concrete C1 failing input: a non-creator in room `r` holding
registered open links to the creator and to fellow joiner `r-7`, with both
in the roster. -/
def starSwitchState : CoordState :=
  { roomId := "r", isCreator := false, selfId := "r-5",
    networkTopology := Topology.mesh,
    participants := [⟨"r-creator", 0, true⟩, ⟨"r-7", 1, false⟩],
    connections :=
      [("r-creator", { mediaConnection := some ⟨"r-creator"⟩,
                       dataConnection := some ⟨"r-creator", true⟩ }),
       ("r-7", { mediaConnection := some ⟨"r-7"⟩,
                 dataConnection := some ⟨"r-7", true⟩ })] }

/-- C3 counterexample input: a mesh non-creator with an empty registry
receiving a peer list naming only the (unregistered) creator id. -/
def peerListCexState : CoordState :=
  { roomId := "r", isCreator := false, selfId := "r-5",
    networkTopology := Topology.mesh, participants := [], connections := [] }

/-! ### Registry lemmas -/

theorem lookupConn_cons (kv : String × ConnEntry) (tl : Registry) (k : String) :
    lookupConn (kv :: tl) k = if kv.1 == k then some kv.2 else lookupConn tl k := by
  cases h : (kv.1 == k) with
  | true => simp [lookupConn, List.find?_cons_of_pos, h]
  | false => simp [lookupConn, List.find?_cons_of_neg, h]

theorem deleteConn_cons_self (kv : String × ConnEntry) (tl : Registry) (k : String)
    (h : (kv.1 == k) = true) : deleteConn (kv :: tl) k = deleteConn tl k := by
  unfold deleteConn
  rw [List.filter_cons_of_neg]
  simp [bne, h]

theorem deleteConn_cons_ne (kv : String × ConnEntry) (tl : Registry) (k : String)
    (h : (kv.1 == k) = false) : deleteConn (kv :: tl) k = kv :: deleteConn tl k := by
  unfold deleteConn
  rw [List.filter_cons_of_pos]
  simp [bne, h]

theorem lookupConn_deleteConn_self (cs : Registry) (k : String) :
    lookupConn (deleteConn cs k) k = none := by
  induction cs with
  | nil => rfl
  | cons kv tl ih =>
    cases h : (kv.1 == k) with
    | true => rw [deleteConn_cons_self kv tl k h]; exact ih
    | false => rw [deleteConn_cons_ne kv tl k h, lookupConn_cons]; simpa [h] using ih

theorem lookupConn_deleteConn_ne (cs : Registry) (k k' : String) (h : k' ≠ k) :
    lookupConn (deleteConn cs k) k' = lookupConn cs k' := by
  induction cs with
  | nil => rfl
  | cons kv tl ih =>
    cases hk : (kv.1 == k) with
    | true =>
      have hkv : kv.1 = k := by simpa using hk
      have hb : (kv.1 == k') = false := by
        simp [hkv]
        exact fun e => h e.symm
      rw [deleteConn_cons_self kv tl k hk, lookupConn_cons]
      simpa [hb] using ih
    | false =>
      rw [deleteConn_cons_ne kv tl k hk, lookupConn_cons, lookupConn_cons]
      cases hq : (kv.1 == k') with
      | true => simp [hq]
      | false => simpa [hq] using ih

theorem upsertConn_cons_self (kv : String × ConnEntry) (tl : Registry) (k : String)
    (f : Option ConnEntry → ConnEntry) (h : (kv.1 == k) = true) :
    upsertConn (kv :: tl) k f
      = (k, f (some kv.2))
        :: tl.map (fun kv => if kv.1 == k then (k, f (some kv.2)) else kv) := by
  unfold upsertConn
  rw [List.find?_cons_of_pos _ (by simpa using h)]
  have hkv : kv.1 = k := by simpa using h
  simp [List.map_cons, hkv]

theorem upsertConn_cons_ne (kv : String × ConnEntry) (tl : Registry) (k : String)
    (f : Option ConnEntry → ConnEntry) (h : (kv.1 == k) = false) :
    upsertConn (kv :: tl) k f = kv :: upsertConn tl k f := by
  unfold upsertConn
  rw [List.find?_cons_of_neg _ (by simp [h])]
  have hkv : ¬kv.1 = k := by simpa using h
  by_cases hs : (tl.find? (fun kv => kv.1 == k)).isSome
  · simp [hs, List.map_cons, hkv]
  · simp [hs, hkv]

theorem lookupConn_updMap_ne (tl : Registry) (k k' : String)
    (f : Option ConnEntry → ConnEntry) (h : k' ≠ k) :
    lookupConn (tl.map (fun kv => if kv.1 == k then (k, f (some kv.2)) else kv)) k'
      = lookupConn tl k' := by
  induction tl with
  | nil => rfl
  | cons kw tw ih =>
    cases hw : (kw.1 == k) with
    | true =>
      have hkw : kw.1 = k := by simpa using hw
      have hk1 : (k == k') = false := by
        simp
        exact fun e => h e.symm
      have hk2 : (kw.1 == k') = false := by
        simp [hkw]
        exact fun e => h e.symm
      simp only [List.map_cons, hw, if_true]
      rw [lookupConn_cons, lookupConn_cons]
      simp only [hk1, hk2, Bool.false_eq_true, if_neg, ite_false]
      simpa using ih
    | false =>
      simp only [List.map_cons, hw, Bool.false_eq_true, if_neg, ite_false]
      rw [lookupConn_cons, lookupConn_cons]
      cases hq : (kw.1 == k') with
      | true => simp [hq]
      | false => simpa [hq] using ih

theorem lookupConn_upsertConn_self (cs : Registry) (k : String)
    (f : Option ConnEntry → ConnEntry) :
    lookupConn (upsertConn cs k f) k = some (f (lookupConn cs k)) := by
  induction cs with
  | nil => simp [upsertConn, lookupConn]
  | cons kv tl ih =>
    cases h : (kv.1 == k) with
    | true =>
      rw [upsertConn_cons_self kv tl k f h, lookupConn_cons, lookupConn_cons]
      simp [h]
    | false =>
      rw [upsertConn_cons_ne kv tl k f h, lookupConn_cons, lookupConn_cons]
      simpa [h] using ih

theorem lookupConn_upsertConn_ne (cs : Registry) (k k' : String)
    (f : Option ConnEntry → ConnEntry) (h : k' ≠ k) :
    lookupConn (upsertConn cs k f) k' = lookupConn cs k' := by
  induction cs with
  | nil =>
    have hk : (k == k') = false := by
      simp
      exact fun e => h e.symm
    simp [upsertConn, lookupConn, hk]
  | cons kv tl ih =>
    cases hb : (kv.1 == k) with
    | true =>
      have hkv : kv.1 = k := by simpa using hb
      have hk1 : (k == k') = false := by
        simp
        exact fun e => h e.symm
      have hk2 : (kv.1 == k') = false := by
        simp [hkv]
        exact fun e => h e.symm
      rw [upsertConn_cons_self kv tl k f hb, lookupConn_cons, lookupConn_cons]
      simp only [hk1, hk2, Bool.false_eq_true, if_neg, ite_false]
      exact lookupConn_updMap_ne tl k k' f h
    | false =>
      rw [upsertConn_cons_ne kv tl k f hb, lookupConn_cons, lookupConn_cons]
      cases hq : (kv.1 == k') with
      | true => simp [hq]
      | false => simpa [hq] using ih

/-! ### Lemmas about establishPeerConnection -/

theorem establishPeerConnection_noop (s : CoordState) (pid : String)
    (h : pid = s.selfId ∨ mediaRegistered s pid = true) :
    establishPeerConnection s pid = (s, []) := by
  rcases h with h | h
  · simp [establishPeerConnection, h]
  · simp [establishPeerConnection, h]

theorem establishPeerConnection_fields (s : CoordState) (pid : String) :
    (establishPeerConnection s pid).1.roomId = s.roomId
    ∧ (establishPeerConnection s pid).1.isCreator = s.isCreator
    ∧ (establishPeerConnection s pid).1.selfId = s.selfId
    ∧ (establishPeerConnection s pid).1.networkTopology = s.networkTopology
    ∧ (establishPeerConnection s pid).1.participants = s.participants := by
  unfold establishPeerConnection
  by_cases h1 : pid = s.selfId
  · simp [h1]
  · cases h2 : mediaRegistered s pid with
    | true => simp [h1, h2]
    | false => simp [h1, h2]

theorem establishPeerConnection_registers (s : CoordState) (pid : String)
    (h1 : pid ≠ s.selfId) :
    mediaRegistered (establishPeerConnection s pid).1 pid = true := by
  cases h2 : mediaRegistered s pid with
  | true =>
    rw [establishPeerConnection_noop s pid (Or.inr h2)]
    exact h2
  | false =>
    simp only [establishPeerConnection, h1, h2, if_neg, Bool.false_eq_true, ite_false]
    simp [mediaRegistered, lookupConn_upsertConn_self]

theorem establishPeerConnection_media_mono (s : CoordState) (pid q : String)
    (h : mediaRegistered s q = true) :
    mediaRegistered (establishPeerConnection s pid).1 q = true := by
  by_cases hq : q = pid
  · subst hq
    by_cases h1 : q = s.selfId
    · rw [establishPeerConnection_noop s q (Or.inl h1)]; exact h
    · exact establishPeerConnection_registers s q h1
  · by_cases h1 : pid = s.selfId
    · rw [establishPeerConnection_noop s pid (Or.inl h1)]; exact h
    · cases h2 : mediaRegistered s pid with
      | true => rw [establishPeerConnection_noop s pid (Or.inr h2)]; exact h
      | false =>
        simp only [establishPeerConnection, h1, h2, if_neg, Bool.false_eq_true, ite_false]
        simpa [mediaRegistered, lookupConn_upsertConn_ne _ _ _ _ hq] using h

/-- C5: `establishPeerConnection(peerId)` is a no-op when `peerId` is the
local id or a media connection to it is registered; otherwise it dials the
data link exactly when no data connection is registered and dials the media
link (none being registered), registering it; and calling it twice in a row
equals calling it once. -/
theorem establishPeerConnection_idempotent (s : CoordState) (pid : String) :
    ((pid = s.selfId ∨ mediaRegistered s pid = true) →
        establishPeerConnection s pid = (s, []))
    ∧ (pid ≠ s.selfId → mediaRegistered s pid = false →
        (establishPeerConnection s pid).2
            = (if dataRegistered s pid then [] else [Act.dialData pid])
                ++ [Act.dialMedia pid]
          ∧ mediaRegistered (establishPeerConnection s pid).1 pid = true)
    ∧ establishPeerConnection (establishPeerConnection s pid).1 pid
        = ((establishPeerConnection s pid).1, []) := by
  refine ⟨establishPeerConnection_noop s pid, fun h1 h2 => ⟨?_, ?_⟩, ?_⟩
  · simp [establishPeerConnection, h1, h2]
  · exact establishPeerConnection_registers s pid h1
  · by_cases h1 : pid = s.selfId
    · have hself : (establishPeerConnection s pid).1.selfId = s.selfId :=
        (establishPeerConnection_fields s pid).2.2.1
      exact establishPeerConnection_noop _ pid (Or.inl (hself ▸ h1))
    · exact establishPeerConnection_noop _ pid
        (Or.inr (establishPeerConnection_registers s pid h1))

theorem establishPeerConnection_idempotent_witness :
    establishPeerConnection exState "w-9" = (exState, []) :=
  (establishPeerConnection_idempotent exState "w-9").1 (Or.inr (by decide))

/-- C2: a remote stream arriving for an id already present in the roster
returns the roster unchanged — no duplicate entry, no join observation —
at each of the three insertion sites: the inbound call answer, the outbound
`establishPeerConnection` call, and `connectToCreator`. -/
theorem roster_insert_idempotent (prev : List Participant) (pid : String) (st : Nat)
    (h : prev.any (fun p => p.id == pid) = true) :
    (∀ topo isCr, inboundCallRosterUpdate topo isCr pid st prev = (prev, false))
    ∧ establishStreamRosterUpdate pid st prev = prev
    ∧ (∀ roomId, roomId ++ "-creator" = pid →
        connectToCreatorRosterUpdate roomId st prev = prev) := by
  refine ⟨fun topo isCr => ?_, ?_, fun roomId hr => ?_⟩
  · simp [inboundCallRosterUpdate, h]
  · simp [establishStreamRosterUpdate, h]
  · simp only [connectToCreatorRosterUpdate, hr, h, if_pos]

theorem roster_insert_idempotent_witness :
    inboundCallRosterUpdate Topology.mesh false "q-creator" 5
        [⟨"q-creator", 0, true⟩] = ([⟨"q-creator", 0, true⟩], false)
    ∧ connectToCreatorRosterUpdate "q" 5 [⟨"q-creator", 0, true⟩]
        = [⟨"q-creator", 0, true⟩] :=
  ⟨(roster_insert_idempotent [⟨"q-creator", 0, true⟩] "q-creator" 5 (by decide)).1
      Topology.mesh false,
   (roster_insert_idempotent [⟨"q-creator", 0, true⟩] "q-creator" 5 (by decide)).2.2
      "q" rfl⟩

/-- C6: a `peer-disconnect` message carrying `pid` removes `pid` from the
roster and the connection registry unconditionally (no liveness check, no
topology or role guard), and is a no-op when `pid` is absent from both. -/
theorem peerDisconnect_removal (now : Nat) (s : CoordState) (fromPeer pid : String)
    (t : Nat) (hpid : pid ≠ "") :
    handleDataConnectionData now s fromPeer (Msg.peerDisconnect pid t)
        = (handlePeerDisconnection s pid, [])
    ∧ (handlePeerDisconnection s pid).participants
        = s.participants.filter (fun p => p.id != pid)
    ∧ lookupConn (handlePeerDisconnection s pid).connections pid = none
    ∧ (handlePeerDisconnection s pid).roomId = s.roomId
    ∧ (handlePeerDisconnection s pid).isCreator = s.isCreator
    ∧ (handlePeerDisconnection s pid).selfId = s.selfId
    ∧ (handlePeerDisconnection s pid).networkTopology = s.networkTopology
    ∧ (s.participants.all (fun p => p.id != pid) = true →
        lookupConn s.connections pid = none →
        handlePeerDisconnection s pid = s) := by
  refine ⟨?_, rfl, ?_, rfl, rfl, rfl, rfl, ?_⟩
  · simp [handleDataConnectionData, hpid]
  · unfold handlePeerDisconnection
    by_cases hs : (lookupConn s.connections pid).isSome
    · simp only [hs, if_pos]
      exact lookupConn_deleteConn_self s.connections pid
    · simp only [hs, Bool.false_eq_true, if_neg, ite_false]
      exact Option.not_isSome_iff_eq_none.mp hs
  · intro hall hnone
    unfold handlePeerDisconnection
    have h1 : s.participants.filter (fun p => p.id != pid) = s.participants :=
      List.filter_eq_self.mpr (List.all_eq_true.mp hall)
    have h2 : ¬(lookupConn s.connections pid).isSome := by simp [hnone]
    simp [h1, h2]

theorem peerDisconnect_removal_witness :
    handleDataConnectionData 0 exState "w-9" (Msg.peerDisconnect "w-9" 7)
        = (handlePeerDisconnection exState "w-9", [])
    ∧ lookupConn (handlePeerDisconnection exState "w-9").connections "w-9" = none :=
  ⟨(peerDisconnect_removal 0 exState "w-9" "w-9" 7 (by decide)).1,
   (peerDisconnect_removal 0 exState "w-9" "w-9" 7 (by decide)).2.2.1⟩

/-- C1 (code bug, line 561): switching a non-creator to star closes both
links of the non-creator peer and deletes it from the registry as the claim
states, but the roster update filters with `p.id === peerId`, so the roster
afterwards is exactly `[r-7]` — the closed peer is kept and the creator
entry is dropped — instead of `[r-creator]`. -/
theorem setTopology_star_roster_bug :
    (setTopology 0 starSwitchState Topology.star).1.connections.map (·.1)
        = ["r-creator"]
    ∧ (setTopology 0 starSwitchState Topology.star).2
        = [Act.closeMedia "r-7", Act.closeData "r-7"]
    ∧ (setTopology 0 starSwitchState Topology.star).1.participants
        = [⟨"r-7", 1, false⟩] := by
  refine ⟨?_, ?_, ?_⟩ <;> decide

theorem closeActsOf_shape (e : Option ConnEntry) (pid : String) (a : Act)
    (h : a ∈ closeActsOf e pid) :
    a = Act.closeMedia pid ∨ a = Act.closeData pid := by
  cases hm : e.bind (fun x => x.mediaConnection) with
  | none =>
    cases hd : e.bind (fun x => x.dataConnection) with
    | none => simp [closeActsOf, hm, hd] at h
    | some d => simp [closeActsOf, hm, hd] at h; exact Or.inr h
  | some m =>
    cases hd : e.bind (fun x => x.dataConnection) with
    | none => simp [closeActsOf, hm, hd] at h; exact Or.inl h
    | some d => simp [closeActsOf, hm, hd] at h; exact h.imp id id

theorem mem_closes_fold (l : Registry) (init : List Act) (a : Act)
    (h : a ∈ l.foldl (fun acc kv => acc ++ closeActsOf (some kv.2) kv.1) init) :
    a ∈ init ∨ ∃ pid, a = Act.closeMedia pid ∨ a = Act.closeData pid := by
  induction l generalizing init with
  | nil => exact Or.inl h
  | cons kv tl ih =>
    simp only [List.foldl_cons] at h
    rcases ih _ h with h1 | h1
    · rcases List.mem_append.mp h1 with h2 | h2
      · exact Or.inl h2
      · exact Or.inr ⟨kv.1, closeActsOf_shape _ _ _ h2⟩
    · exact Or.inr h1

/-- C7 (code bug): the teardown sequence notifies open data links with
`peer-disconnect`, closes every registered channel and destroys the peer
handle, in that order — but it never stops the creator broadcast timer:
no `Act.stopTimer` occurs in any teardown effect list, because the
`clearInterval` closure of line 154 is the return value of the peer `open`
event handler, which the event emitter discards, so the 10-second broadcast
keeps firing after teardown. -/
theorem cleanup_never_stops_broadcast_timer :
    (∀ now s, Act.stopTimer ∉ cleanupActions now s)
    ∧ cleanupActions 5 exState
        = [Act.send "w-9" (Msg.peerDisconnect "w-creator" 5),
           Act.closeMedia "w-9", Act.closeData "w-9", Act.destroyPeer] := by
  constructor
  · intro now s hmem
    unfold cleanupActions at hmem
    rcases List.mem_append.mp hmem with h | h
    · rcases List.mem_append.mp h with h | h
      · rcases List.mem_map.mp h with ⟨kv, _, he⟩
        cases he
      · rcases mem_closes_fold _ _ _ h with h1 | ⟨pid, h1 | h1⟩
        · cases h1
        · cases h1
        · cases h1
    · simp at h
  · decide

theorem filter_updMap_ne (tl : Registry) (k : String)
    (f : Option ConnEntry → ConnEntry) (q : ConnEntry → Bool) :
    (tl.map (fun kv => if kv.1 == k then (k, f (some kv.2)) else kv)).filter
        (fun kv => kv.1 != k && q kv.2)
      = tl.filter (fun kv => kv.1 != k && q kv.2) := by
  induction tl with
  | nil => rfl
  | cons kw tw ih =>
    cases hw : (kw.1 == k) with
    | true =>
      simp only [List.map_cons, hw, if_true]
      rw [List.filter_cons_of_neg (by simp [bne]),
          List.filter_cons_of_neg (by simp [bne, hw])]
      exact ih
    | false =>
      simp only [List.map_cons, hw, Bool.false_eq_true, if_neg, ite_false]
      rw [List.filter_cons, List.filter_cons, ih]

theorem filter_upsertConn_ne (cs : Registry) (k : String)
    (f : Option ConnEntry → ConnEntry) (q : ConnEntry → Bool) :
    (upsertConn cs k f).filter (fun kv => kv.1 != k && q kv.2)
      = cs.filter (fun kv => kv.1 != k && q kv.2) := by
  induction cs with
  | nil =>
    simp only [upsertConn, List.find?_nil, Option.isSome_none, Bool.false_eq_true,
      if_neg, ite_false, List.nil_append]
    rw [List.filter_cons_of_neg (by simp [bne])]
  | cons kv tl ih =>
    cases hb : (kv.1 == k) with
    | true =>
      rw [upsertConn_cons_self kv tl k f hb]
      rw [List.filter_cons_of_neg (by simp [bne]),
          List.filter_cons_of_neg (by simp [bne, hb])]
      exact filter_updMap_ne tl k f q
    | false =>
      rw [upsertConn_cons_ne kv tl k f hb]
      rw [List.filter_cons, List.filter_cons, ih]

/-- C4: when the creator's new data link to `c` reaches open, the emitted
effects are exactly: first a `peer-list` to `c` carrying the creator id
followed by every roster id, then one `new-peer` naming `c` to every other
registered peer whose data link is open; no announcement targets `c`. -/
theorem creator_fanout_on_open (now : Nat) (s : CoordState) (c : String)
    (hcr : s.isCreator = true) (hself : s.selfId ≠ "")
    (hids : ∀ p ∈ s.participants, p.id ≠ "") :
    (handleDataConnectionOpen now s c).2
        = Act.send c (Msg.peerList (s.selfId :: s.participants.map (·.id)) now)
            :: (s.connections.filter (fun kv => kv.1 != c && dataOpenEntry kv.2)).map
                (fun kv => Act.send kv.1 (Msg.newPeer c now))
    ∧ ∀ a ∈ (handleDataConnectionOpen now s c).2.tail, ∀ m, a ≠ Act.send c m := by
  have hfilt : (s.selfId :: s.participants.map (·.id)).filter (fun x => x != "")
      = s.selfId :: s.participants.map (·.id) := by
    refine List.filter_eq_self.mpr ?_
    intro x hx
    rcases List.mem_cons.mp hx with h | h
    · simpa [h] using hself
    · rcases List.mem_map.mp h with ⟨p, hp, rfl⟩
      simpa using hids p hp
  have hmain : (handleDataConnectionOpen now s c).2
      = Act.send c (Msg.peerList (s.selfId :: s.participants.map (·.id)) now)
          :: (s.connections.filter (fun kv => kv.1 != c && dataOpenEntry kv.2)).map
              (fun kv => Act.send kv.1 (Msg.newPeer c now)) := by
    simp only [handleDataConnectionOpen, hcr, if_pos, hfilt]
    rw [filter_upsertConn_ne]
  refine ⟨hmain, ?_⟩
  intro a ha m
  rw [hmain] at ha
  simp only [List.tail_cons] at ha
  rcases List.mem_map.mp ha with ⟨kv, hkv, rfl⟩
  have hne : (kv.1 != c) = true := ((List.mem_filter.mp hkv).2 |> Bool.and_elim_left)
  intro he
  cases he
  simp at hne

theorem creator_fanout_on_open_witness :
    (handleDataConnectionOpen 2 exState "w-12").2
      = [Act.send "w-12" (Msg.peerList ["w-creator", "w-9"] 2),
         Act.send "w-9" (Msg.newPeer "w-12" 2)] :=
  ((creator_fanout_on_open 2 exState "w-12" (by decide) (by decide)
      (by decide)).1).trans (by decide)

/-- C8: `reconnectAll` by role: the creator immediately re-broadcasts the
peer list over every open data link; a non-creator whose creator data link
is not open re-dials the creator from scratch, overwriting the registry
entry with the two fresh links; a non-creator whose creator link is open
sends exactly one `request-peer-list` on it. -/
theorem reconnectAll_by_role (now : Nat) (s : CoordState) :
    (s.isCreator = true →
        reconnectAll now s
          = (s, (s.connections.filter (fun kv => dataOpenEntry kv.2)).map
              (fun kv => Act.send kv.1
                (Msg.peerList (s.selfId :: s.participants.map (·.id)) now))))
    ∧ (s.isCreator = false → dataOpenAt s (s.roomId ++ "-creator") = false →
        reconnectAll now s
          = ({ s with connections :=
                (upsertConn s.connections (s.roomId ++ "-creator") (fun _ =>
                  { mediaConnection := some ⟨s.roomId ++ "-creator"⟩,
                    dataConnection := some ⟨s.roomId ++ "-creator", false⟩ })) },
             [Act.dialData (s.roomId ++ "-creator"),
              Act.dialMedia (s.roomId ++ "-creator")]))
    ∧ (s.isCreator = false → dataOpenAt s (s.roomId ++ "-creator") = true →
        reconnectAll now s
          = (s, [Act.send (s.roomId ++ "-creator") (Msg.requestPeerList now)])) := by
  refine ⟨fun h => ?_, fun h ho => ?_, fun h ho => ?_⟩
  · simp [reconnectAll, broadcastPeerList, h]
  · simp [reconnectAll, connectToCreator, h, ho]
  · simp [reconnectAll, h, ho]

theorem reconnectAll_by_role_witness :
    reconnectAll 1 exState
      = (exState, [Act.send "w-9" (Msg.peerList ["w-creator", "w-9"] 1)]) :=
  ((reconnectAll_by_role 1 exState).1 (by decide)).trans (by decide)

/-! ### Substring-boundary lemmas for the creator marker -/

theorem string_data_append (s t : String) : (s ++ t).data = s.data ++ t.data := rfl

theorem cons_infix_append_drop {α : Type} (c : α) (w B A : List α)
    (hc : c ∉ B) (h : (c :: w) <:+: (B ++ A)) : (c :: w) <:+: A := by
  induction B with
  | nil => simpa using h
  | cons b B ih =>
    obtain ⟨s, t, hst⟩ := h
    cases s with
    | nil =>
      simp only [List.nil_append, List.cons_append] at hst
      have hcb : c = b := by
        have := congrArg (fun l => l.head?) hst
        simpa using this
      exact absurd (hcb ▸ List.mem_cons_self b B) hc
    | cons x s2 =>
      have htl : s2 ++ (c :: w) ++ t = B ++ A := by
        have := congrArg (fun l => l.tail) hst
        simpa using this
      exact ih (fun hm => hc (List.mem_cons_of_mem b hm)) ⟨s2, t, htl⟩

theorem snoc_infix_append_drop {α : Type} (c : α) (w A B : List α)
    (hc : c ∉ B) (h : (w ++ [c]) <:+: (A ++ B)) : (w ++ [c]) <:+: A := by
  rw [← List.reverse_infix] at h ⊢
  simp only [List.reverse_append, List.reverse_cons, List.reverse_nil,
    List.nil_append, List.singleton_append] at h ⊢
  exact cons_infix_append_drop c w.reverse B.reverse A.reverse
    (fun hm => hc (List.mem_reverse.mp hm)) h

theorem includes_creator_marker_append (roomId : String) :
    includes (creatorPeerId roomId) "-creator" = true := by
  have h : "-creator".data <:+: (creatorPeerId roomId).data :=
    ⟨roomId.data, [], by rw [creatorPeerId, string_data_append, List.append_nil]⟩
  simp only [includes, decide_eq_true_eq]
  exact h

theorem joiner_id_no_creator_marker (roomId suf : String)
    (hroom : includes roomId "-creator" = false)
    (hsuf : ∀ ch ∈ suf.data, ch.isDigit = true) :
    includes (joinerPeerId roomId suf) "-creator" = false := by
  simp only [includes, decide_eq_false_iff_not] at hroom ⊢
  intro h
  apply hroom
  have hdata : (joinerPeerId roomId suf).data = roomId.data ++ ('-' :: suf.data) := by
    rw [joinerPeerId, string_data_append, string_data_append, List.append_assoc]
    rfl
  rw [hdata] at h
  have hr : ('r' : Char) ∉ ('-' :: suf.data) := by
    intro hm
    rcases List.mem_cons.mp hm with h1 | h1
    · exact absurd h1 (by decide)
    · exact absurd (hsuf _ h1) (by decide)
  exact snoc_infix_append_drop 'r'
    ['-', 'c', 'r', 'e', 'a', 't', 'o']
    roomId.data ('-' :: suf.data) hr h

/-- C9 counterexample: when the room id itself contains the creator marker
(here `"a-creator"`, which any user may type into the join form), the
generated joiner id does contain the substring `"-creator"`, refuting the
claim for that roomId. -/
theorem joiner_id_creator_marker_cex :
    includes (joinerPeerId "a-creator" "1712") "-creator" = true := by decide

/-- C9 (amended): for every room id that does not itself contain the creator
marker, the creator id `{roomId}-creator` contains `"-creator"` and every
joiner id `{roomId}-{suffix}` with a decimal suffix (the rendering of
`Date.now()`) does not — so exactly one generated peer id per room carries
the marker. -/
theorem peer_id_marker_amended (roomId suf : String)
    (hroom : includes roomId "-creator" = false)
    (hsuf : ∀ ch ∈ suf.data, ch.isDigit = true) :
    includes (creatorPeerId roomId) "-creator" = true
    ∧ includes (joinerPeerId roomId suf) "-creator" = false :=
  ⟨includes_creator_marker_append roomId,
   joiner_id_no_creator_marker roomId suf hroom hsuf⟩

theorem peer_id_marker_amended_witness :
    includes (creatorPeerId "room1") "-creator" = true
    ∧ includes (joinerPeerId "room1" "1712345") "-creator" = false :=
  peer_id_marker_amended "room1" "1712345" (by decide) (by decide)

/-! ### C10: roster flag invariant -/

theorem rosterOk_append_single (prev : List Participant) (h : RosterOk prev)
    (p : Participant) (hp : p.isCreator = includes p.id "-creator") :
    RosterOk (prev ++ [p]) := by
  intro q hq
  rcases List.mem_append.mp hq with h1 | h1
  · exact h q h1
  · have : q = p := List.mem_singleton.mp h1
    subst this
    exact hp

theorem rosterOk_filter (prev : List Participant) (h : RosterOk prev)
    (f : Participant → Bool) : RosterOk (prev.filter f) :=
  fun q hq => h q (List.mem_of_mem_filter hq)

/-- C10: every roster operation preserves the invariant that each entry
satisfies `isCreator = includes id "-creator"`: the three insertion sites
compute the flag from the id (the `connectToCreator` site hard-codes `true`
together with the id `{roomId}-creator`, which contains the marker), and
every removal site is a filter. -/
theorem roster_isCreator_invariant (prev : List Participant) (h : RosterOk prev) :
    (∀ topo isCr cp st, RosterOk (inboundCallRosterUpdate topo isCr cp st prev).1)
    ∧ (∀ pid st, RosterOk (establishStreamRosterUpdate pid st prev))
    ∧ (∀ roomId st, RosterOk (connectToCreatorRosterUpdate roomId st prev))
    ∧ (∀ f, RosterOk (prev.filter f))
    ∧ (∀ s pid, RosterOk s.participants →
        RosterOk (handlePeerDisconnection s pid).participants) := by
  refine ⟨fun topo isCr cp st => ?_, fun pid st => ?_, fun roomId st => ?_,
    fun f => rosterOk_filter prev h f, fun s pid hs => ?_⟩
  · unfold inboundCallRosterUpdate
    by_cases hany : prev.any (fun p => p.id == cp) = true
    · simpa [hany] using h
    · simp only [hany, Bool.false_eq_true, if_neg, ite_false]
      exact rosterOk_append_single prev h _ rfl
  · unfold establishStreamRosterUpdate
    by_cases hany : prev.any (fun p => p.id == pid) = true
    · simpa [hany] using h
    · simp only [hany, Bool.false_eq_true, if_neg, ite_false]
      exact rosterOk_append_single prev h _ rfl
  · unfold connectToCreatorRosterUpdate
    by_cases hany : prev.any (fun p => p.id == roomId ++ "-creator") = true
    · simpa [hany] using h
    · simp only [hany, Bool.false_eq_true, if_neg, ite_false]
      exact rosterOk_append_single prev h _
        (includes_creator_marker_append roomId).symm
  · exact rosterOk_filter s.participants hs _

theorem roster_isCreator_invariant_witness :
    RosterOk (establishStreamRosterUpdate "v-creator" 4 []) :=
  (roster_isCreator_invariant [] (by simp [RosterOk])).2.1 "v-creator" 4

/-! ### C3: handlePeerList -/

/-- C3 counterexample: in mesh topology the claim requires
`establishPeerConnection("r-creator")` to be issued for the listed creator
id — it is neither self nor connection-registered — which on this empty
registry would dial data and media links; the code skips every id containing
`"-creator"` (line 483), so no action is emitted and the state is exactly
unchanged. -/
theorem handlePeerList_skips_creator_id_cex :
    handlePeerList peerListCexState ["r-creator"] = (peerListCexState, []) := by
  decide

theorem handlePeerListStep_fields (acc : CoordState × List Act) (pid : String) :
    (handlePeerListStep acc pid).1.selfId = acc.1.selfId
    ∧ (handlePeerListStep acc pid).1.networkTopology = acc.1.networkTopology
    ∧ (handlePeerListStep acc pid).1.isCreator = acc.1.isCreator := by
  unfold handlePeerListStep
  split
  · exact ⟨rfl, rfl, rfl⟩
  · split
    · exact ⟨(establishPeerConnection_fields _ _).2.2.1,
        (establishPeerConnection_fields _ _).2.2.2.1,
        (establishPeerConnection_fields _ _).2.1⟩
    · exact ⟨rfl, rfl, rfl⟩

theorem handlePeerListFold_fields (l : List String) (acc : CoordState × List Act) :
    (l.foldl handlePeerListStep acc).1.selfId = acc.1.selfId
    ∧ (l.foldl handlePeerListStep acc).1.networkTopology = acc.1.networkTopology
    ∧ (l.foldl handlePeerListStep acc).1.isCreator = acc.1.isCreator := by
  induction l generalizing acc with
  | nil => exact ⟨rfl, rfl, rfl⟩
  | cons pid tl ih =>
    simp only [List.foldl_cons]
    exact ⟨((ih _).1).trans (handlePeerListStep_fields acc pid).1,
      ((ih _).2.1).trans (handlePeerListStep_fields acc pid).2.1,
      ((ih _).2.2).trans (handlePeerListStep_fields acc pid).2.2⟩

theorem handlePeerListStep_media_mono (acc : CoordState × List Act) (pid q : String)
    (h : mediaRegistered acc.1 q = true) :
    mediaRegistered (handlePeerListStep acc pid).1 q = true := by
  unfold handlePeerListStep
  split
  · exact h
  · split
    · exact establishPeerConnection_media_mono acc.1 pid q h
    · exact h

theorem handlePeerListFold_media_mono (l : List String) (acc : CoordState × List Act)
    (q : String) (h : mediaRegistered acc.1 q = true) :
    mediaRegistered (l.foldl handlePeerListStep acc).1 q = true := by
  induction l generalizing acc with
  | nil => exact h
  | cons pid tl ih =>
    simp only [List.foldl_cons]
    exact ih _ (handlePeerListStep_media_mono acc pid q h)

theorem handlePeerListStep_registers (acc : CoordState × List Act) (pid : String)
    (hself : pid ≠ acc.1.selfId) (hmark : includes pid "-creator" = false)
    (hperm : acc.1.networkTopology = Topology.mesh ∨ acc.1.isCreator = true) :
    mediaRegistered (handlePeerListStep acc pid).1 pid = true := by
  unfold handlePeerListStep
  have h1 : ¬(pid = acc.1.selfId ∨ includes pid "-creator" = true) := by
    rintro (h | h)
    · exact hself h
    · rw [hmark] at h
      exact Bool.noConfusion h
  rw [if_neg h1, if_pos hperm]
  exact establishPeerConnection_registers acc.1 pid hself

theorem handlePeerListFold_registers (l : List String) (acc : CoordState × List Act)
    (q : String) (hq : q ∈ l) (hself : q ≠ acc.1.selfId)
    (hmark : includes q "-creator" = false)
    (hperm : acc.1.networkTopology = Topology.mesh ∨ acc.1.isCreator = true) :
    mediaRegistered (l.foldl handlePeerListStep acc).1 q = true := by
  induction l generalizing acc with
  | nil => cases hq
  | cons pid tl ih =>
    simp only [List.foldl_cons]
    rcases List.mem_cons.mp hq with rfl | hmem
    · exact handlePeerListFold_media_mono tl _ q
        (handlePeerListStep_registers acc q hself hmark hperm)
    · have hf := handlePeerListStep_fields acc pid
      exact ih _ hmem (by rw [hf.1]; exact hself)
        (by rw [hf.2.1, hf.2.2]; exact hperm)

theorem handlePeerListFold_noop (l : List String) (acc : CoordState × List Act)
    (hstar : acc.1.networkTopology = Topology.star) (hcr : acc.1.isCreator = false) :
    l.foldl handlePeerListStep acc = acc := by
  induction l generalizing acc with
  | nil => rfl
  | cons pid tl ih =>
    simp only [List.foldl_cons]
    have hstep : handlePeerListStep acc pid = acc := by
      unfold handlePeerListStep
      split
      · rfl
      · rw [if_neg]
        rintro (h | h)
        · rw [hstar] at h
          exact absurd h (by decide)
        · rw [hcr] at h
          exact Bool.noConfusion h
    rw [hstep]
    exact ih _ hstar hcr

theorem removeStep_lookup_self (acc : CoordState × List Act) (pid : String) :
    lookupConn (removeRegisteredPeerStep acc pid).1.connections pid = none :=
  lookupConn_deleteConn_self acc.1.connections pid

theorem removeStep_lookup_ne (acc : CoordState × List Act) (pid q : String)
    (h : q ≠ pid) :
    lookupConn (removeRegisteredPeerStep acc pid).1.connections q
      = lookupConn acc.1.connections q :=
  lookupConn_deleteConn_ne acc.1.connections pid q h

theorem removeFold_lookup_none (l : List String) (acc : CoordState × List Act)
    (q : String) (h : lookupConn acc.1.connections q = none ∨ q ∈ l) :
    lookupConn (l.foldl removeRegisteredPeerStep acc).1.connections q = none := by
  induction l generalizing acc with
  | nil =>
    rcases h with h | h
    · exact h
    · cases h
  | cons pid tl ih =>
    simp only [List.foldl_cons]
    rcases h with h | h
    · refine ih _ (Or.inl ?_)
      by_cases hq : q = pid
      · subst hq
        exact removeStep_lookup_self acc q
      · rw [removeStep_lookup_ne acc pid q hq]
        exact h
    · rcases List.mem_cons.mp h with rfl | hmem
      · exact ih _ (Or.inl (removeStep_lookup_self acc q))
      · exact ih _ (Or.inr hmem)

theorem removeFold_participants_sub (l : List String) (acc : CoordState × List Act)
    (p : Participant)
    (hp : p ∈ (l.foldl removeRegisteredPeerStep acc).1.participants) :
    p ∈ acc.1.participants := by
  induction l generalizing acc with
  | nil => exact hp
  | cons k tl ih =>
    simp only [List.foldl_cons] at hp
    have h1 := ih _ hp
    have hpart : (removeRegisteredPeerStep acc k).1.participants
        = acc.1.participants.filter (fun x => x.id != k) := rfl
    rw [hpart] at h1
    exact List.mem_of_mem_filter h1

theorem removeFold_participants_ne (l : List String) (acc : CoordState × List Act)
    (pid : String) (hpid : pid ∈ l) (p : Participant)
    (hp : p ∈ (l.foldl removeRegisteredPeerStep acc).1.participants) :
    p.id ≠ pid := by
  induction l generalizing acc with
  | nil => cases hpid
  | cons k tl ih =>
    simp only [List.foldl_cons] at hp
    rcases List.mem_cons.mp hpid with rfl | hmem
    · have h1 := removeFold_participants_sub tl _ p hp
      have hpart : (removeRegisteredPeerStep acc pid).1.participants
          = acc.1.participants.filter (fun x => x.id != pid) := rfl
      rw [hpart] at h1
      have h2 := (List.mem_filter.mp h1).2
      simpa using h2
    · exact ih _ hmem hp

theorem removeFold_acts_mono (l : List String) (acc : CoordState × List Act)
    (a : Act) (h : a ∈ acc.2) :
    a ∈ (l.foldl removeRegisteredPeerStep acc).2 := by
  induction l generalizing acc with
  | nil => exact h
  | cons k tl ih =>
    simp only [List.foldl_cons]
    refine ih _ ?_
    have hacts : (removeRegisteredPeerStep acc k).2
        = acc.2 ++ closeActsOf (lookupConn acc.1.connections k) k := rfl
    rw [hacts]
    exact List.mem_append.mpr (Or.inl h)

theorem removeFold_closeMedia_mem (l : List String) (acc : CoordState × List Act)
    (pid : String) (hpid : pid ∈ l)
    (hmedia : ((lookupConn acc.1.connections pid).bind (·.mediaConnection)).isSome
      = true) :
    Act.closeMedia pid ∈ (l.foldl removeRegisteredPeerStep acc).2 := by
  induction l generalizing acc with
  | nil => cases hpid
  | cons k tl ih =>
    simp only [List.foldl_cons]
    by_cases hk : pid = k
    · subst hk
      refine removeFold_acts_mono tl _ _ ?_
      have hacts : (removeRegisteredPeerStep acc pid).2
          = acc.2 ++ closeActsOf (lookupConn acc.1.connections pid) pid := rfl
      rw [hacts]
      refine List.mem_append.mpr (Or.inr ?_)
      cases hm : (lookupConn acc.1.connections pid).bind (fun x => x.mediaConnection) with
      | none =>
        rw [hm] at hmedia
        exact Bool.noConfusion hmedia
      | some m =>
        simp [closeActsOf, hm]
    · rcases List.mem_cons.mp hpid with h | hmem
      · exact absurd h hk
      · refine ih _ hmem ?_
        rw [removeStep_lookup_ne acc k pid hk]
        exact hmedia

theorem removeFold_closeData_mem (l : List String) (acc : CoordState × List Act)
    (pid : String) (hpid : pid ∈ l)
    (hdata : ((lookupConn acc.1.connections pid).bind (·.dataConnection)).isSome
      = true) :
    Act.closeData pid ∈ (l.foldl removeRegisteredPeerStep acc).2 := by
  induction l generalizing acc with
  | nil => cases hpid
  | cons k tl ih =>
    simp only [List.foldl_cons]
    by_cases hk : pid = k
    · subst hk
      refine removeFold_acts_mono tl _ _ ?_
      have hacts : (removeRegisteredPeerStep acc pid).2
          = acc.2 ++ closeActsOf (lookupConn acc.1.connections pid) pid := rfl
      rw [hacts]
      refine List.mem_append.mpr (Or.inr ?_)
      cases hd : (lookupConn acc.1.connections pid).bind (fun x => x.dataConnection) with
      | none =>
        rw [hd] at hdata
        exact Bool.noConfusion hdata
      | some d =>
        simp [closeActsOf, hd]
    · rcases List.mem_cons.mp hpid with h | hmem
      · exact absurd h hk
      · refine ih _ hmem ?_
        rw [removeStep_lookup_ne acc k pid hk]
        exact hdata

theorem mem_keys_of_lookup_isSome (cs : Registry) (k : String)
    (h : (lookupConn cs k).isSome = true) : k ∈ cs.map (·.1) := by
  unfold lookupConn at h
  rw [Option.isSome_map'] at h
  rw [List.find?_isSome] at h
  rcases h with ⟨kv, hm, hp⟩
  have hk : kv.1 = k := by simpa using hp
  exact hk ▸ List.mem_map.mpr ⟨kv, hm, rfl⟩

/-- C3 (amended): on receiving a peer-list — (1) when the local topology is
mesh or the local role is creator, every listed id other than self that does
not contain the creator marker `"-creator"` ends up media-registered (ids
containing the marker are skipped by line 483 even when unregistered, which
is what the counterexample forces the claim to concede; registration is
checked inside `establishPeerConnection`); (2) when the topology is star and
the role is non-creator, every non-marker id ends up unregistered, and every
registered peer with a non-marker id is removed from the roster and has its
present channels closed. -/
theorem handlePeerList_amended (s : CoordState) (peerIds : List String) :
    ((s.networkTopology = Topology.mesh ∨ s.isCreator = true) →
        ∀ pid ∈ peerIds, pid ≠ s.selfId → includes pid "-creator" = false →
          mediaRegistered (handlePeerList s peerIds).1 pid = true)
    ∧ (s.networkTopology = Topology.star → s.isCreator = false →
        ∀ pid, includes pid "-creator" = false →
          lookupConn (handlePeerList s peerIds).1.connections pid = none
          ∧ (pid ∈ s.connections.map (·.1) →
              (∀ p ∈ (handlePeerList s peerIds).1.participants, p.id ≠ pid)
              ∧ (mediaRegistered s pid = true →
                  Act.closeMedia pid ∈ (handlePeerList s peerIds).2)
              ∧ (dataRegistered s pid = true →
                  Act.closeData pid ∈ (handlePeerList s peerIds).2))) := by
  constructor
  · intro hperm pid hmem hself hmark
    have hf := handlePeerListFold_fields peerIds (s, ([] : List Act))
    have hreg := handlePeerListFold_registers peerIds (s, []) pid hmem hself hmark hperm
    have hcond : ¬((peerIds.foldl handlePeerListStep
          (s, ([] : List Act))).1.networkTopology = Topology.star
        ∧ (peerIds.foldl handlePeerListStep (s, ([] : List Act))).1.isCreator
          = false) := by
      rintro ⟨h1, h2⟩
      rw [hf.2.1] at h1
      rw [hf.2.2] at h2
      rcases hperm with hm | hc
      · rw [hm] at h1
        exact absurd h1 (by decide)
      · rw [hc] at h2
        exact Bool.noConfusion h2
    simp only [handlePeerList]
    rw [if_neg hcond]
    exact hreg
  · intro hstar hcr
    have hfold : peerIds.foldl handlePeerListStep (s, ([] : List Act)) = (s, []) :=
      handlePeerListFold_noop peerIds (s, []) hstar hcr
    have heq : handlePeerList s peerIds
        = ((s.connections.map (·.1)).filter
            (fun id => !(includes id "-creator"))).foldl
            removeRegisteredPeerStep (s, []) := by
      simp only [handlePeerList]
      rw [hfold]
      rw [if_pos ⟨hstar, hcr⟩]
    intro pid hmark
    rw [heq]
    have hmarkb : (!(includes pid "-creator")) = true := by
      rw [hmark]
      rfl
    constructor
    · by_cases hreg : (lookupConn s.connections pid).isSome
      · exact removeFold_lookup_none _ _ _ (Or.inr (List.mem_filter.mpr
          ⟨mem_keys_of_lookup_isSome s.connections pid hreg, hmarkb⟩))
      · exact removeFold_lookup_none _ _ _
          (Or.inl (Option.not_isSome_iff_eq_none.mp hreg))
    · intro hkeys
      have hmem2 : pid ∈ (s.connections.map (·.1)).filter
          (fun id => !(includes id "-creator")) :=
        List.mem_filter.mpr ⟨hkeys, hmarkb⟩
      exact ⟨fun p hp => removeFold_participants_ne _ _ pid hmem2 p hp,
        fun hm => removeFold_closeMedia_mem _ _ pid hmem2 hm,
        fun hd => removeFold_closeData_mem _ _ pid hmem2 hd⟩

theorem handlePeerList_amended_witness :
    mediaRegistered (handlePeerList peerListCexState ["r-7"]).1 "r-7" = true :=
  (handlePeerList_amended peerListCexState ["r-7"]).1 (Or.inl rfl) "r-7"
    (by decide) (by decide) (by decide)

theorem cleanup_never_stops_broadcast_timer_witness :
    Act.stopTimer ∉ cleanupActions 0 exState :=
  cleanup_never_stops_broadcast_timer.1 0 exState
